import Mathlib

/-!
Shallow embedding of cmds/lshal/PipeRelay.cpp from android_frameworks_native.

The relay owns a pipe and a background drain worker (RelayThread).  One
iteration of the drain loop (threadLoop) performs a timeout-bounded select
on the read end, then possibly a read, appending data to the output stream
and diagnostics to the error stream.  The per-iteration inputs that come
from the operating system and from the concurrently running owner context
(select outcome, the finished flag, read outcome) are modelled as explicit
parameters; streams are modelled as the list of items appended so far.
-/

/-- A diagnostic message written to the error stream by threadLoop. -/
inductive Diag where
  | selectFailed (fqName : String)
  | readFailed (fqName : String)
  | timeoutTruncated (fqName : String)
  deriving DecidableEq

/-- The exact text each diagnostic prints, as written by threadLoop via
the stream insertion operators. -/
def Diag.render : Diag → String
  | .selectFailed fq => "debug " ++ fq ++ ": select() failed"
  | .readFailed fq => "debug " ++ fq ++ ": read() failed"
  | .timeoutTruncated fq =>
      "debug " ++ fq ++ ": timeout reading from pipe, output may be truncated."

/-- Outcome of the (already TEMP_FAILURE_RETRY-wrapped) select call, as
classified by threadLoop: res less than 0 is an error; res equal to 0, or the
fd not being set in the fd_set, means no data became ready within the
timeout; otherwise the read end is ready. -/
inductive SelectResult where
  | error
  | notReady
  | ready
  deriving DecidableEq

/-- Outcome of the (already TEMP_FAILURE_RETRY-wrapped) read call: n less
than 0 is an error, n equal to 0 is end of stream, n greater than 0 delivers
the bytes read (at most the 1024-byte buffer per call). -/
inductive ReadResult where
  | error
  | eof
  | data (bytes : List Nat)
  deriving DecidableEq

/-- The two sinks of the worker: the output stream (bytes appended so far,
mOutStream) and the error stream (diagnostics appended so far, mErrStream). -/
structure Streams where
  out : List Nat
  err : List Diag
  deriving DecidableEq

/-- TEMP_FAILURE_RETRY: repeat the system call while it is interrupted by a
signal (result -1 with errno EINTR, modelled as none); return the first
non-interrupted result.  The argument lists the successive raw outcomes of
the retried call. -/
def TEMP_FAILURE_RETRY : List (Option Int) → Option Int
  | [] => none
  | none :: rest => TEMP_FAILURE_RETRY rest
  | some n :: _ => some n

/-- One iteration of PipeRelay::RelayThread::threadLoop.  `fq` is mFqName,
`finished` the value the iteration observes in mFinished, `sel` the
classified select outcome, `rd` the classified read outcome (consulted only
when the fd was ready).  Returns the updated streams and the boolean
threadLoop returns (true keeps the thread looping, false exits it). -/
def threadLoop (fq : String) (finished : Bool) (sel : SelectResult)
    (rd : ReadResult) (s : Streams) : Streams × Bool :=
  match sel with
  | .error => ({ s with err := s.err ++ [Diag.selectFailed fq] }, false)
  | .notReady =>
      if finished then
        ({ s with err := s.err ++ [Diag.timeoutTruncated fq] }, false)
      else
        (s, true)
  | .ready =>
      match rd with
      | .error => ({ s with err := s.err ++ [Diag.readFailed fq] }, false)
      | .eof => (s, false)
      | .data bytes => ({ s with out := s.out ++ bytes }, true)

/-- The per-iteration inputs supplied by the environment (OS and owner
context) to one execution of threadLoop. -/
structure Env where
  finished : Bool
  sel : SelectResult
  rd : ReadResult
  deriving DecidableEq

/-- The Thread framework runs threadLoop repeatedly while it returns true.
`runWorker` executes the loop against a finite schedule of environment
inputs, stopping early when an iteration returns false. -/
def runWorker (fq : String) : List Env → Streams → Streams
  | [], s => s
  | e :: es, s =>
      let r := threadLoop fq e.finished e.sel e.rd s
      if r.2 then runWorker fq es r.1 else r.1

/-- The chunks delivered by the positive-length reads the worker performs,
in arrival order, over a schedule of environment inputs (stopping at the
first iteration that exits the loop). -/
def chunksRead : List Env → List (List Nat)
  | [] => []
  | e :: es =>
      match e.sel, e.rd with
      | .ready, .data bytes => bytes :: chunksRead es
      | .ready, _ => []
      | .notReady, _ => if e.finished then [] else chunksRead es
      | .error, _ => []

/-- State of a PipeRelay::RelayThread object: the read-end descriptor, the
atomic finished flag (std::atomic_bool mFinished) and the diagnostic label
mFqName.  The two stream references are modelled separately by `Streams`. -/
structure RelayThread where
  mFd : Int
  mFinished : Bool
  mFqName : String
  deriving DecidableEq

/-- The RelayThread constructor: stores the descriptor and label and
initializes mFinished to false. -/
def RelayThread.construct (fd : Int) (fqName : String) : RelayThread :=
  { mFd := fd, mFinished := false, mFqName := fqName }

/-- PipeRelay::RelayThread::setFinished: stores true into mFinished. -/
def RelayThread.setFinished (t : RelayThread) : RelayThread :=
  { t with mFinished := true }

/-- State of a PipeRelay object: mFds (read end, write end), the worker
thread handle (none when no thread object was created) and mInitCheck. -/
structure Relay where
  mFds : Int × Int
  mThread : Option RelayThread
  mInitCheck : Int
  deriving DecidableEq

/-- Outcome of the pipe(2) call in the constructor: on success the two
fresh descriptors, on failure the errno value. -/
inductive PipeResult where
  | ok (readFd writeFd : Int)
  | fail (errno : Int)
  deriving DecidableEq

/-- The PipeRelay constructor.  `fds0` are the (indeterminate) initial
contents of the mFds array, left untouched when pipe fails; `pres` the
outcome of pipe(2); `runResult` the status returned by Thread::run when a
thread is started.  On pipe failure mInitCheck becomes -errno and no thread
is created; on success the thread is created on the read end with label
interfaceName + "/" + instanceName and mInitCheck records the run result.
(The transient NO_INIT stored by the initializer list is overwritten on
both paths before the constructor returns.) -/
def pipeRelayConstruct (fds0 : Int × Int) (pres : PipeResult) (runResult : Int)
    (interfaceName instanceName : String) : Relay :=
  match pres with
  | .fail e => { mFds := fds0, mThread := none, mInitCheck := -e }
  | .ok rfd wfd =>
      { mFds := (rfd, wfd),
        mThread := some (RelayThread.construct rfd (interfaceName ++ "/" ++ instanceName)),
        mInitCheck := runResult }

/-- PipeRelay::initCheck. -/
def initCheck (r : Relay) : Int := r.mInitCheck

/-- PipeRelay::fd: the write-end descriptor handed to the producer. -/
def fd (r : Relay) : Int := r.mFds.2

/-- PipeRelay::CloseFd on a descriptor slot: when the slot holds a valid
(nonnegative) descriptor, close it and store the sentinel -1; otherwise do
nothing.  Returns the new slot value and whether close(2) was invoked. -/
def CloseFd (fdv : Int) : Int × Bool :=
  if 0 ≤ fdv then (-1, true) else (fdv, false)

/-- Observable steps taken by the PipeRelay destructor. -/
inductive DtorAction where
  | closeSyscall (fdv : Int)
  | setFinishedAct
  | joinAct
  deriving DecidableEq

/-- The PipeRelay destructor: CloseFd on the write end mFds[1]; then, if a
thread object exists, setFinished on it followed by join and clearing the
handle; finally CloseFd on the read end mFds[0].  Returns the final object
state and the trace of observable actions in execution order. -/
def pipeRelayDestruct (r : Relay) : Relay × List DtorAction :=
  let cw := CloseFd r.mFds.2
  let traceW := if cw.2 then [DtorAction.closeSyscall r.mFds.2] else []
  match r.mThread with
  | some _ =>
      let cr := CloseFd r.mFds.1
      ({ r with mFds := (cr.1, cw.1), mThread := none },
        traceW ++ [DtorAction.setFinishedAct, DtorAction.joinAct] ++
          (if cr.2 then [DtorAction.closeSyscall r.mFds.1] else []))
  | none =>
      let cr := CloseFd r.mFds.1
      ({ r with mFds := (cr.1, cw.1) },
        traceW ++ (if cr.2 then [DtorAction.closeSyscall r.mFds.1] else []))

/-- Number of truncation diagnostics for label `fq` in an error stream. -/
def countTrunc (fq : String) (l : List Diag) : Nat :=
  l.countP (fun d => d == Diag.timeoutTruncated fq)

/-! ### Helper lemmas -/

/-- An iteration that keeps the loop running never writes a diagnostic. -/
lemma threadLoop_cont_err (fq : String) (fin : Bool) (sel : SelectResult)
    (rd : ReadResult) (s : Streams) (h : (threadLoop fq fin sel rd s).2 = true) :
    (threadLoop fq fin sel rd s).1.err = s.err := by
  cases sel <;> cases rd <;> cases fin <;> simp_all [threadLoop]

/-- The bytes appended to the output sink over a run are exactly the
concatenation of the chunks read, in arrival order. -/
lemma runWorker_out (fq : String) (es : List Env) (s : Streams) :
    (runWorker fq es s).out = s.out ++ (chunksRead es).flatten := by
  induction es generalizing s with
  | nil => simp [runWorker, chunksRead]
  | cons e es ih =>
      obtain ⟨fin, sel, rd⟩ := e
      cases sel <;> cases rd <;> cases fin <;>
        simp [runWorker, threadLoop, chunksRead, ih]

/-- Over any run, the number of truncation diagnostics grows by at most one. -/
lemma runWorker_trunc (fq : String) (es : List Env) (s : Streams) :
    countTrunc fq (runWorker fq es s).err ≤ countTrunc fq s.err + 1 := by
  induction es generalizing s with
  | nil => exact Nat.le_succ_of_le (Nat.le_refl _)
  | cons e es ih =>
      obtain ⟨fin, sel, rd⟩ := e
      cases sel <;> cases rd <;> cases fin <;>
        simp_all [runWorker, threadLoop, countTrunc, List.countP_append]

/-! ### Claims -/

/-- C1: each positive-length read of n bytes is appended verbatim (exactly
those bytes, nothing to the error stream) and the worker keeps running
regardless of the finished flag; hence over any run the concatenation of
the bytes appended to the output sink equals the concatenation of the
chunks read from the pipe in arrival order. -/
theorem claim_C1 :
    (∀ (fq : String) (fin : Bool) (bytes : List Nat) (s : Streams), bytes ≠ [] →
      (threadLoop fq fin SelectResult.ready (ReadResult.data bytes) s).1.out = s.out ++ bytes ∧
      (threadLoop fq fin SelectResult.ready (ReadResult.data bytes) s).1.err = s.err ∧
      (threadLoop fq fin SelectResult.ready (ReadResult.data bytes) s).2 = true) ∧
    (∀ (fq : String) (es : List Env) (s : Streams),
      (runWorker fq es s).out = s.out ++ (chunksRead es).flatten) :=
  ⟨fun _ _ _ _ _ => ⟨rfl, rfl, rfl⟩, runWorker_out⟩

/-- Witness for C1: a concrete data read and a concrete two-step run. -/
theorem claim_C1_witness :
    ((threadLoop "a/b" true SelectResult.ready (ReadResult.data [7, 8])
        { out := [1], err := [] }).1.out = [1] ++ [7, 8]) ∧
    (runWorker "a/b"
        [{ finished := false, sel := SelectResult.ready, rd := ReadResult.data [7] },
         { finished := true, sel := SelectResult.notReady, rd := ReadResult.eof }]
        { out := [], err := [] }).out =
      ([] : List Nat) ++ (chunksRead
        [{ finished := false, sel := SelectResult.ready, rd := ReadResult.data [7] },
         { finished := true, sel := SelectResult.notReady, rd := ReadResult.eof }]).flatten :=
  ⟨(claim_C1.1 "a/b" true [7, 8] { out := [1], err := [] } (by decide)).1,
   claim_C1.2 "a/b" _ { out := [], err := [] }⟩

/-- C2: with a live worker thread and valid descriptors the destructor
performs exactly: close the write end, set the finished flag, join, close
the read end — so the read end is closed only after the join. -/
theorem claim_C2 (r : Relay) (t : RelayThread) (hT : r.mThread = some t)
    (hW : 0 ≤ r.mFds.2) (hR : 0 ≤ r.mFds.1) :
    (pipeRelayDestruct r).2 =
      [DtorAction.closeSyscall r.mFds.2, DtorAction.setFinishedAct,
       DtorAction.joinAct, DtorAction.closeSyscall r.mFds.1] := by
  simp [pipeRelayDestruct, CloseFd, hT, hW, hR]

/-- Witness for C2: a concrete relay with thread and descriptors 3 and 4. -/
theorem claim_C2_witness :
    (pipeRelayDestruct
      { mFds := (3, 4), mThread := some (RelayThread.construct 3 "x/y"),
        mInitCheck := 0 }).2 =
      [DtorAction.closeSyscall 4, DtorAction.setFinishedAct,
       DtorAction.joinAct, DtorAction.closeSyscall 3] :=
  claim_C2 _ (RelayThread.construct 3 "x/y") rfl (by decide) (by decide)

/-- C3: the finished flag is consulted only on the timed-out-wait path (the
iteration outcome is independent of the flag whenever the wait did not time
out), the worker keeps draining while each wait reports data ready even
after the flag is set, and the truncation exit diagnostic can arise only
from a timed-out wait observed with the flag set. -/
theorem claim_C3 :
    (∀ (fq : String) (sel : SelectResult) (rd : ReadResult) (s : Streams)
        (b1 b2 : Bool), sel ≠ SelectResult.notReady →
      threadLoop fq b1 sel rd s = threadLoop fq b2 sel rd s) ∧
    (∀ (fq : String) (bytes : List Nat) (s : Streams),
      (threadLoop fq true SelectResult.ready (ReadResult.data bytes) s).2 = true) ∧
    (∀ (fq : String) (fin : Bool) (sel : SelectResult) (rd : ReadResult) (s : Streams),
      Diag.timeoutTruncated fq ∈ (threadLoop fq fin sel rd s).1.err →
      Diag.timeoutTruncated fq ∈ s.err ∨ (sel = SelectResult.notReady ∧ fin = true)) := by
  refine ⟨?_, fun _ _ _ => rfl, ?_⟩
  · intro fq sel rd s b1 b2 h
    cases sel <;> simp_all [threadLoop]
  · intro fq fin sel rd s h
    cases sel <;> cases rd <;> cases fin <;> simp_all [threadLoop]

/-- Witness for C3: independence of the flag on a ready iteration, and the
truncation gating instantiated at a timed-out wait with the flag set. -/
theorem claim_C3_witness :
    (threadLoop "x" false SelectResult.ready ReadResult.eof { out := [], err := [] } =
       threadLoop "x" true SelectResult.ready ReadResult.eof { out := [], err := [] }) ∧
    (Diag.timeoutTruncated "x" ∈ ({ out := [], err := [] } : Streams).err ∨
       (SelectResult.notReady = SelectResult.notReady ∧ (true : Bool) = true)) :=
  ⟨claim_C3.1 "x" SelectResult.ready ReadResult.eof { out := [], err := [] }
      false true (by decide),
   claim_C3.2.2 "x" true SelectResult.notReady ReadResult.eof { out := [], err := [] }
      (by decide)⟩

/-- C4: on a timed-out wait, if the finished flag is false the iteration
changes nothing and keeps running; if it is true the iteration appends
exactly one truncation diagnostic and exits; over any run started with
empty sinks at most one truncation diagnostic is ever produced. -/
theorem claim_C4 :
    (∀ (fq : String) (rd : ReadResult) (s : Streams),
      threadLoop fq false SelectResult.notReady rd s = (s, true)) ∧
    (∀ (fq : String) (rd : ReadResult) (s : Streams),
      threadLoop fq true SelectResult.notReady rd s =
        ({ s with err := s.err ++ [Diag.timeoutTruncated fq] }, false)) ∧
    (∀ (fq : String) (es : List Env),
      countTrunc fq (runWorker fq es { out := [], err := [] }).err ≤ 1) := by
  refine ⟨fun fq rd s => rfl, fun fq rd s => rfl, fun fq es => ?_⟩
  have h := runWorker_trunc fq es { out := [], err := [] }
  simpa [countTrunc] using h

/-- C5: on pipe failure the constructor creates no worker thread and
initCheck reports the negated errno from pipe creation; on success
initCheck records the result of starting the worker thread on the read
end. -/
theorem claim_C5 :
    (∀ (fds0 : Int × Int) (e rr : Int) (i j : String),
      (pipeRelayConstruct fds0 (PipeResult.fail e) rr i j).mThread = none ∧
      initCheck (pipeRelayConstruct fds0 (PipeResult.fail e) rr i j) = -e) ∧
    (∀ (fds0 : Int × Int) (rfd wfd rr : Int) (i j : String),
      (pipeRelayConstruct fds0 (PipeResult.ok rfd wfd) rr i j).mThread =
        some (RelayThread.construct rfd (i ++ "/" ++ j)) ∧
      initCheck (pipeRelayConstruct fds0 (PipeResult.ok rfd wfd) rr i j) = rr) :=
  ⟨fun _ _ _ _ _ => ⟨rfl, rfl⟩, fun _ _ _ _ _ _ => ⟨rfl, rfl⟩⟩

/-- C6: signal interruptions of the wait or read are retried transparently
(a leading interruption does not change the retried result); a genuine wait
error or read error appends exactly one diagnostic and exits the worker;
each such diagnostic renders with the label embedded in its text. -/
theorem claim_C6 :
    (∀ (l : List (Option Int)), TEMP_FAILURE_RETRY (none :: l) = TEMP_FAILURE_RETRY l) ∧
    (∀ (fq : String) (fin : Bool) (rd : ReadResult) (s : Streams),
      threadLoop fq fin SelectResult.error rd s =
        ({ s with err := s.err ++ [Diag.selectFailed fq] }, false)) ∧
    (∀ (fq : String) (fin : Bool) (s : Streams),
      threadLoop fq fin SelectResult.ready ReadResult.error s =
        ({ s with err := s.err ++ [Diag.readFailed fq] }, false)) ∧
    (∀ fq : String,
      (∃ a b, (Diag.selectFailed fq).render = a ++ fq ++ b) ∧
      (∃ a b, (Diag.readFailed fq).render = a ++ fq ++ b)) :=
  ⟨fun _ => rfl, fun _ _ _ _ => rfl, fun _ _ _ => rfl,
   fun _ => ⟨⟨"debug ", ": select() failed", rfl⟩, ⟨"debug ", ": read() failed", rfl⟩⟩⟩

/-- C7: a zero-length read terminates the worker with no diagnostic and no
output append, for either value of the finished flag. -/
theorem claim_C7 :
    ∀ (fq : String) (fin : Bool) (s : Streams),
      threadLoop fq fin SelectResult.ready ReadResult.eof s = (s, false) :=
  fun _ _ _ => rfl

/-- C8: the finished flag starts false at construction, setFinished stores
true and changes nothing else, and any further applications of setFinished
leave it true — the transition is monotone false to true. -/
theorem claim_C8 :
    (∀ (fdv : Int) (fq : String), (RelayThread.construct fdv fq).mFinished = false) ∧
    (∀ t : RelayThread, (RelayThread.setFinished t).mFinished = true ∧
      (RelayThread.setFinished t).mFd = t.mFd ∧
      (RelayThread.setFinished t).mFqName = t.mFqName) ∧
    (∀ (t : RelayThread) (n : Nat),
      (RelayThread.setFinished^[n] (RelayThread.setFinished t)).mFinished = true) := by
  refine ⟨fun _ _ => rfl, fun t => ⟨rfl, rfl, rfl⟩, ?_⟩
  intro t n
  induction n with
  | zero => rfl
  | succ n ih => rw [Function.iterate_succ_apply']; rfl

/-- C9: the close helper is a no-op on an invalid (negative) slot, leaves
the sentinel -1 after closing a valid slot, and a second application to the
resulting slot never invokes close(2) — the descriptor is closed at most
once. -/
theorem claim_C9 :
    (∀ fdv : Int, fdv < 0 → CloseFd fdv = (fdv, false)) ∧
    (∀ fdv : Int, 0 ≤ fdv → CloseFd fdv = (-1, true)) ∧
    (∀ fdv : Int, (CloseFd (CloseFd fdv).1).2 = false) := by
  refine ⟨?_, ?_, ?_⟩
  · intro fdv h; simp [CloseFd, not_le.mpr h]
  · intro fdv h; simp [CloseFd, h]
  · intro fdv; by_cases h : 0 ≤ fdv <;> simp [CloseFd, h]

/-- Witness for C9: the helper on an invalid slot -5 and on a valid slot 3. -/
theorem claim_C9_witness :
    CloseFd (-5) = (-5, false) ∧ CloseFd 3 = (-1, true) :=
  ⟨claim_C9.1 (-5) (by decide), claim_C9.2.1 3 (by decide)⟩

/-- C10: destroying a relay whose construction failed at pipe allocation
runs only the two descriptor-close steps; the set-finished and join steps
are skipped entirely under the null-thread guard. -/
theorem claim_C10 :
    ∀ (fds0 : Int × Int) (e rr : Int) (i j : String),
      (pipeRelayDestruct (pipeRelayConstruct fds0 (PipeResult.fail e) rr i j)).2 =
        (if 0 ≤ fds0.2 then [DtorAction.closeSyscall fds0.2] else []) ++
        (if 0 ≤ fds0.1 then [DtorAction.closeSyscall fds0.1] else []) ∧
      DtorAction.setFinishedAct ∉
        (pipeRelayDestruct (pipeRelayConstruct fds0 (PipeResult.fail e) rr i j)).2 ∧
      DtorAction.joinAct ∉
        (pipeRelayDestruct (pipeRelayConstruct fds0 (PipeResult.fail e) rr i j)).2 := by
  intro fds0 e rr i j
  refine ⟨?_, ?_, ?_⟩ <;>
    by_cases h2 : 0 ≤ fds0.2 <;> by_cases h1 : 0 ≤ fds0.1 <;>
      simp [pipeRelayDestruct, pipeRelayConstruct, CloseFd, h1, h2]
